import Mathlib

/-!
Shallow embedding of the trajectory scheduling and acceptance core of
bindcraft-nhej (files bindcraft_nhej/core/config.py and
bindcraft_nhej/core/binder_design.py), together with proofs of the
specification claims about it.

Modelling conventions: Python ints are Int (counters that start at 0 or 1
and are only incremented are Nat); Python strings are String; a Python dict
used as a JSON record is an association list over a tagged value type; the
filesystem is a list of existing path strings; the random draws of the loop
are an oracle stream of (length, seed) pairs; the external executor
(run_binder_hallucination) is an oracle function; the unbounded while loop
is run with explicit fuel, returning none when fuel is exhausted while the
loop would still continue.
-/

/-! ## Decimal formatting (the f-string number formatting used by the namer) -/

/-- Decimal digit characters of a natural number, most significant first,
with explicit fuel.  Mirrors the decimal formatting that a Python f-string
performs on a nonnegative int. -/
def natReprAux : Nat → Nat → List Char
  | 0, _ => []
  | fuel + 1, n =>
    if n < 10 then [Nat.digitChar n]
    else natReprAux fuel (n / 10) ++ [Nat.digitChar (n % 10)]

/-- Decimal representation of a natural number as a string. -/
def natRepr (n : Nat) : String :=
  String.mk (natReprAux (n + 1) n)

/-- Decimal representation of a Python int: an optional minus sign followed
by the decimal digits of the absolute value. -/
def intRepr : Int → String
  | Int.ofNat m => natRepr m
  | Int.negSucc m => "-" ++ natRepr (m + 1)

lemma natReprAux_fuel_irrel (n : Nat) : ∀ f1 f2, n < f1 → n < f2 →
    natReprAux f1 n = natReprAux f2 n := by
  induction n using Nat.strong_induction_on with
  | _ n ih =>
    intro f1 f2 h1 h2
    match f1, f2 with
    | a + 1, b + 1 =>
      by_cases hn : n < 10
      · simp [natReprAux, hn]
      · have hd : n / 10 < n := by omega
        have := ih (n / 10) hd a b (by omega) (by omega)
        simp [natReprAux, hn, this]

/-- Canonical digit-character list of a natural number. -/
def natReprChars (n : Nat) : List Char := natReprAux (n + 1) n

lemma natRepr_eq_mk (n : Nat) : natRepr n = String.mk (natReprChars n) := rfl

lemma natReprChars_lt (n : Nat) (h : n < 10) : natReprChars n = [Nat.digitChar n] := by
  simp [natReprChars, natReprAux, h]

lemma natReprChars_ge (n : Nat) (h : 10 ≤ n) :
    natReprChars n = natReprChars (n / 10) ++ [Nat.digitChar (n % 10)] := by
  have h10 : ¬ n < 10 := by omega
  show natReprAux (n + 1) n = _
  simp only [natReprAux, h10, if_false]
  have : natReprAux n (n / 10) = natReprAux (n / 10 + 1) (n / 10) :=
    natReprAux_fuel_irrel (n / 10) n (n / 10 + 1) (by omega) (by omega)
  rw [this]; rfl

lemma natReprChars_ne_nil (n : Nat) : natReprChars n ≠ [] := by
  by_cases h : n < 10
  · rw [natReprChars_lt n h]; simp
  · rw [natReprChars_ge n (by omega)]; simp

lemma natReprChars_mem_digit (n : Nat) :
    ∀ c ∈ natReprChars n, ∃ d, d < 10 ∧ c = Nat.digitChar d := by
  induction n using Nat.strong_induction_on with
  | _ n ih =>
    intro c hc
    by_cases h : n < 10
    · rw [natReprChars_lt n h] at hc
      simp at hc
      exact ⟨n, h, hc⟩
    · rw [natReprChars_ge n (by omega)] at hc
      rcases List.mem_append.mp hc with h1 | h2
      · exact ih (n / 10) (by omega) c h1
      · simp at h2
        exact ⟨n % 10, by omega, h2⟩

lemma digitChar_inj_lt {a b : Nat} (ha : a < 10) (hb : b < 10)
    (h : Nat.digitChar a = Nat.digitChar b) : a = b := by
  have : ∀ x < 10, ∀ y < 10, Nat.digitChar x = Nat.digitChar y → x = y := by decide
  exact this a ha b hb h

lemma natReprChars_inj : ∀ m n, natReprChars m = natReprChars n → m = n := by
  intro m
  induction m using Nat.strong_induction_on with
  | _ m ih =>
    intro n h
    by_cases hm : m < 10 <;> by_cases hn : n < 10
    · rw [natReprChars_lt m hm, natReprChars_lt n hn] at h
      simp at h
      exact digitChar_inj_lt hm hn h
    · exfalso
      rw [natReprChars_lt m hm, natReprChars_ge n (by omega)] at h
      have hlen := congrArg List.length h
      simp only [List.length_append, List.length_singleton, List.length_cons,
        List.length_nil] at hlen
      have hz : (natReprChars (n / 10)).length = 0 := by omega
      exact natReprChars_ne_nil (n / 10) (List.length_eq_zero.mp hz)
    · exfalso
      rw [natReprChars_ge m (by omega), natReprChars_lt n hn] at h
      have hlen := congrArg List.length h
      simp only [List.length_append, List.length_singleton, List.length_cons,
        List.length_nil] at hlen
      have hz : (natReprChars (m / 10)).length = 0 := by omega
      exact natReprChars_ne_nil (m / 10) (List.length_eq_zero.mp hz)
    · rw [natReprChars_ge m (by omega), natReprChars_ge n (by omega)] at h
      obtain ⟨h1, h2⟩ := List.append_inj' h rfl
      have hq : m / 10 = n / 10 := ih (m / 10) (by omega) (n / 10) h1
      simp at h2
      have hr : m % 10 = n % 10 := digitChar_inj_lt (by omega) (by omega) h2
      omega

lemma natRepr_inj {m n : Nat} (h : natRepr m = natRepr n) : m = n := by
  apply natReprChars_inj
  have := congrArg String.data h
  simpa [natRepr_eq_mk] using this

lemma natRepr_no_dash (n : Nat) : Char.ofNat 45 ∉ natReprChars n := by
  intro hmem
  obtain ⟨d, hd, hcd⟩ := natReprChars_mem_digit n _ hmem
  have : ∀ x < 10, Char.ofNat 45 ≠ Nat.digitChar x := by decide
  exact this d hd hcd

lemma dash_data : ("-" : String).data = [Char.ofNat 45] := rfl

lemma intRepr_inj : ∀ {i j : Int}, intRepr i = intRepr j → i = j := by
  intro i j h
  match i, j with
  | Int.ofNat m, Int.ofNat n =>
    exact congrArg Int.ofNat (natRepr_inj h)
  | Int.ofNat m, Int.negSucc n =>
    exfalso
    simp only [intRepr] at h
    have hd := congrArg String.data h
    rw [String.data_append, dash_data, natRepr_eq_mk] at hd
    apply natRepr_no_dash m
    have hm : natReprChars m = Char.ofNat 45 :: (natRepr (n + 1)).data := by
      simpa using hd
    rw [hm]
    exact List.mem_cons_self _ _
  | Int.negSucc m, Int.ofNat n =>
    exfalso
    simp only [intRepr] at h
    have hd := congrArg String.data h
    rw [String.data_append, dash_data, natRepr_eq_mk] at hd
    apply natRepr_no_dash n
    have hn : natReprChars n = Char.ofNat 45 :: natReprChars (m + 1) := by
      have := hd.symm
      simpa using this
    rw [hn]
    exact List.mem_cons_self _ _
  | Int.negSucc m, Int.negSucc n =>
    simp only [intRepr] at h
    have hd := congrArg String.data h
    rw [String.data_append, String.data_append] at hd
    have hdata := List.append_cancel_left hd
    have hmn := natRepr_inj (String.ext hdata)
    exact congrArg Int.negSucc (by omega : m = n)

/-! ## Settings model (config.py) -/

/-- Settings dataclass of config.py: the seven fields of a design request. -/
structure Settings where
  design_path : String
  binder_name : String
  starting_pdb : String
  chains : String
  target_hotspot_residues : String
  lengths : List Int
  number_of_final_designs : Int
deriving DecidableEq

/-- Values appearing in the JSON record produced by Settings.to_dict:
strings, ints, or lists of ints. -/
inductive JValue where
  | str : String → JValue
  | int : Int → JValue
  | intList : List Int → JValue
deriving DecidableEq

/-- Python dict key access data[k]: the value at the first matching key. -/
def dictGet (d : List (String × JValue)) (k : String) : Option JValue :=
  (d.find? (fun q => q.1 == k)).map (fun q => q.2)

/-- Settings.to_dict (config.py lines 35-45): the canonical record of a
Settings value. -/
def to_dict (x : Settings) : List (String × JValue) :=
  [("design_path", JValue.str x.design_path),
   ("binder_name", JValue.str x.binder_name),
   ("starting_pdb", JValue.str x.starting_pdb),
   ("chains", JValue.str x.chains),
   ("target_hotspot_residues", JValue.str x.target_hotspot_residues),
   ("lengths", JValue.intList x.lengths),
   ("number_of_final_designs", JValue.int x.number_of_final_designs)]

/-- Settings.from_dict (config.py lines 22-33): reads the seven keys from the
record.  A missing key (Python KeyError) or a value of the wrong shape is
modelled as none. -/
def from_dict (d : List (String × JValue)) : Option Settings :=
  match dictGet d "design_path", dictGet d "binder_name", dictGet d "starting_pdb",
      dictGet d "chains", dictGet d "target_hotspot_residues",
      dictGet d "lengths", dictGet d "number_of_final_designs" with
  | some (JValue.str dp), some (JValue.str bn), some (JValue.str sp),
      some (JValue.str ch), some (JValue.str th),
      some (JValue.intList ls), some (JValue.int n) =>
    some ⟨dp, bn, sp, ch, th, ls, n⟩
  | _, _, _, _, _, _, _ => none

/-- The create_default_settings constructor (config.py lines 158-176).  The
source supplies defaults chains="A", target_hotspot_residues="",
lengths=[30, 110], number_of_final_designs=2 at the call sites; they are
explicit parameters here.  The body performs no validation: it only packs
the fields. -/
def create_default_settings (design_path binder_name starting_pdb chains
    target_hotspot_residues : String) (lengths : List Int)
    (number_of_final_designs : Int) : Settings :=
  ⟨design_path, binder_name, starting_pdb, chains, target_hotspot_residues,
   lengths, number_of_final_designs⟩

/-- Modelled from the spec: the create operation of spec section 4.1, which
is absent from the source constructor.  It validates the length-range
ordering and positivity, quota at least 1, and non-empty name and target,
failing with InvalidSettings otherwise (the lengths field is the 2-element
ordered pair required by the spec data model). -/
def createSettingsSpec (design_path binder_name starting_pdb chains
    target_hotspot_residues : String) (lengths : List Int)
    (number_of_final_designs : Int) : Except String Settings :=
  match lengths with
  | [lo, hi] =>
    if lo ≤ hi ∧ 0 < lo ∧ 1 ≤ number_of_final_designs ∧
        binder_name ≠ "" ∧ starting_pdb ≠ "" then
      Except.ok ⟨design_path, binder_name, starting_pdb, chains,
        target_hotspot_residues, lengths, number_of_final_designs⟩
    else Except.error "InvalidSettings"
  | _ => Except.error "InvalidSettings"

/-! ## Workspace and designer (binder_design.py) -/

/-- Result of os.path.join on POSIX for the relative path components used by
setup_directories and check_trajectory_exists. -/
def pathJoin (a b : String) : String := a ++ "/" ++ b

/-- Directory map built by BinderDesigner.setup_directories (binder_design.py
lines 69-95): category key to path.  The Python dict has exactly the fifteen
keys below; any other key would raise, modelled with an unused default. -/
def design_paths (base : String) : String → String
  | "base" => base
  | "Trajectory" => pathJoin base "Trajectory"
  | "Trajectory/Relaxed" => pathJoin (pathJoin base "Trajectory") "Relaxed"
  | "Trajectory/LowConfidence" => pathJoin (pathJoin base "Trajectory") "LowConfidence"
  | "Trajectory/Clashing" => pathJoin (pathJoin base "Trajectory") "Clashing"
  | "Trajectory/Animation" => pathJoin (pathJoin base "Trajectory") "Animation"
  | "Trajectory/Plots" => pathJoin (pathJoin base "Trajectory") "Plots"
  | "MPNN" => pathJoin base "MPNN"
  | "MPNN/Relaxed" => pathJoin (pathJoin base "MPNN") "Relaxed"
  | "MPNN/Binder" => pathJoin (pathJoin base "MPNN") "Binder"
  | "Accepted" => pathJoin base "Accepted"
  | "Accepted/Ranked" => pathJoin (pathJoin base "Accepted") "Ranked"
  | "Accepted/Animation" => pathJoin (pathJoin base "Accepted") "Animation"
  | "Accepted/Plots" => pathJoin (pathJoin base "Accepted") "Plots"
  | "Rejected" => pathJoin base "Rejected"
  | _ => ""

/-- The filesystem is the list of paths that exist; os.path.exists is
membership. -/
def os_path_exists (fs : List String) (p : String) : Bool := fs.contains p

/-- BinderDesigner.generate_design_name (binder_design.py lines 111-113):
the f-string binder_name, "_l", length, "_s", seed. -/
def generate_design_name (binder_name : String) (length seed : Int) : String :=
  binder_name ++ "_l" ++ intRepr length ++ "_s" ++ intRepr seed

/-- BinderDesigner.check_trajectory_exists (binder_design.py lines 115-121):
whether design_name + ".pdb" exists in one of the four trajectory
directories.  dp is the designer's design_paths map, fs the filesystem. -/
def check_trajectory_exists (dp : String → String) (fs : List String)
    (design_name : String) : Bool :=
  ["Trajectory", "Trajectory/Relaxed", "Trajectory/LowConfidence",
    "Trajectory/Clashing"].any
    (fun d => os_path_exists fs (pathJoin (dp d) (design_name ++ ".pdb")))

/-- Fields of the run_binder_hallucination result dict that the loop
consumes: the success flag and the terminate reason (binder_design.py lines
133-145).  The metrics and sequence entries are never read by the
scheduler and are omitted. -/
structure TrajResult where
  success : Bool
  terminate : String
deriving DecidableEq

/-- Counters of BinderDesigner plus two event counters instrumenting the
embedding: exec_invocations counts calls of run_binder_hallucination and
skips counts duplicate-guard skips.  The source fields are trajectory_n and
accepted_designs only. -/
structure LoopState where
  trajectory_n : Nat
  accepted_designs : Nat
  exec_invocations : Nat
  skips : Nat
deriving DecidableEq

/-- Counter initialisation in BinderDesigner.__init__ (binder_design.py
lines 40-42): trajectory_n = 1, accepted_designs = 0. -/
def initState : LoopState := ⟨1, 0, 0, 0⟩

/-- Classification step of one executed attempt (binder_design.py lines
179-189): if the result's success flag is set, increment accepted_designs;
then increment trajectory_n.  The terminate field is not consulted. -/
def runStep (r : TrajResult) (st : LoopState) : LoopState :=
  let st1 := if r.success then
    { st with accepted_designs := st.accepted_designs + 1 } else st
  { st1 with trajectory_n := st1.trajectory_n + 1 }

/-- BinderDesigner.run_design_loop (binder_design.py lines 149-194).
samp i gives the (length, seed) pair the numpy RNG draws on the i-th
iteration; execF is run_binder_hallucination as an oracle; dp and fs feed
check_trajectory_exists.  The while loop runs on fuel: none means fuel ran
out while the loop would still continue.  On each iteration: stop when
accepted_designs has reached number_of_final_designs; otherwise sample,
derive the design name, skip duplicates, else execute and classify, and
break when trajectory_n exceeds 1000. -/
def run_design_loop (s : Settings) (dp : String → String) (fs : List String)
    (samp : Nat → Int × Int) (execF : String → Int → Int → TrajResult) :
    Nat → Nat → LoopState → Option LoopState
  | 0, _, st =>
    if (st.accepted_designs : Int) < s.number_of_final_designs then none
    else some st
  | fuel + 1, i, st =>
    if (st.accepted_designs : Int) < s.number_of_final_designs then
      let length := (samp i).1
      let seed := (samp i).2
      let design_name := generate_design_name s.binder_name length seed
      if check_trajectory_exists dp fs design_name then
        run_design_loop s dp fs samp execF fuel (i + 1)
          { st with skips := st.skips + 1 }
      else
        let st2 := runStep (execF design_name length seed)
          { st with exec_invocations := st.exec_invocations + 1 }
        if st2.trajectory_n > 1000 then some st2
        else run_design_loop s dp fs samp execF fuel (i + 1) st2
    else some st

/-- Final report of run_full_pipeline (binder_design.py lines 225-226): the
total-trajectories figure printed is trajectory_n and the accepted figure is
accepted_designs. -/
def run_summary (st : LoopState) : Nat × Nat :=
  (st.trajectory_n, st.accepted_designs)

example : generate_design_name "b" 30 7 = "b_l30_s7" := rfl
example : generate_design_name "b" (-3) 7 = "b_l-3_s7" := rfl
example : from_dict (to_dict ⟨"d", "b", "t", "A", "", [30, 110], 2⟩) =
    some ⟨"d", "b", "t", "A", "", [30, 110], 2⟩ := rfl
example : run_design_loop ⟨"d", "b", "t.pdb", "A", "", [30, 110], 1⟩
    (design_paths "d") [] (fun _ => (30, 7)) (fun _ _ _ => ⟨true, "early_stop"⟩)
    5 0 initState = some ⟨2, 1, 1, 0⟩ := rfl

/-! ## Basic facts about the classification step -/

lemma runStep_true (t : String) (st : LoopState) :
    runStep ⟨true, t⟩ st =
      ⟨st.trajectory_n + 1, st.accepted_designs + 1,
        st.exec_invocations, st.skips⟩ := rfl

lemma runStep_false_eq (r : TrajResult) (st : LoopState) (h : r.success = false) :
    runStep r st =
      ⟨st.trajectory_n + 1, st.accepted_designs,
        st.exec_invocations, st.skips⟩ := by
  simp [runStep, h]

lemma runStep_trajectory_n (r : TrajResult) (st : LoopState) :
    (runStep r st).trajectory_n = st.trajectory_n + 1 := by
  by_cases h : r.success <;> simp [runStep, h]

lemma runStep_exec_invocations (r : TrajResult) (st : LoopState) :
    (runStep r st).exec_invocations = st.exec_invocations := by
  by_cases h : r.success <;> simp [runStep, h]

/-- Preservation of the off-by-one relation between the trajectory counter
and the number of executor invocations, along any completed run of the
loop. -/
lemma loop_preserves_offbyone (s : Settings) (dp : String → String)
    (fs : List String) (samp : Nat → Int × Int)
    (execF : String → Int → Int → TrajResult) :
    ∀ (fuel i : Nat) (st st' : LoopState),
      st.trajectory_n = st.exec_invocations + 1 →
      run_design_loop s dp fs samp execF fuel i st = some st' →
      st'.trajectory_n = st'.exec_invocations + 1 := by
  intro fuel
  induction fuel with
  | zero =>
    intro i st st' hinv hrun
    by_cases hc : (st.accepted_designs : Int) < s.number_of_final_designs
    · simp [run_design_loop, hc] at hrun
    · simp [run_design_loop, hc] at hrun
      rw [← hrun]; exact hinv
  | succ fuel ih =>
    intro i st st' hinv hrun
    simp only [run_design_loop] at hrun
    by_cases hc : (st.accepted_designs : Int) < s.number_of_final_designs
    · rw [if_pos hc] at hrun
      by_cases hg : check_trajectory_exists dp fs
          (generate_design_name s.binder_name (samp i).1 (samp i).2) = true
      · rw [if_pos hg] at hrun
        exact ih (i + 1) { st with skips := st.skips + 1 } st' hinv hrun
      · rw [if_neg hg] at hrun
        set r := execF (generate_design_name s.binder_name (samp i).1 (samp i).2)
          (samp i).1 (samp i).2 with hr
        set st2 := runStep r { st with exec_invocations := st.exec_invocations + 1 }
          with hst2
        have hinv2 : st2.trajectory_n = st2.exec_invocations + 1 := by
          rw [hst2, runStep_trajectory_n, runStep_exec_invocations]
          simp [hinv]
        by_cases hb : st2.trajectory_n > 1000
        · rw [if_pos hb] at hrun
          simp only [Option.some.injEq] at hrun
          rw [← hrun]
          exact hinv2
        · rw [if_neg hb] at hrun
          exact ih (i + 1) st2 st' hinv2 hrun
    · rw [if_neg hc] at hrun
      simp only [Option.some.injEq] at hrun
      rw [← hrun]
      exact hinv

/-- A loop run in which every invocation of the executor succeeds and the
duplicate guard never fires performs exactly the number of iterations still
needed to meet the quota, provided the fuel suffices and the safety ceiling
is not in the way. -/
lemma loop_all_success_general (s : Settings) (dp : String → String)
    (fs : List String) (samp : Nat → Int × Int)
    (execF : String → Int → Int → TrajResult)
    (hex : ∀ nm l sd, execF nm l sd = ⟨true, ""⟩)
    (hg : ∀ nm, check_trajectory_exists dp fs nm = false) :
    ∀ (n fuel i : Nat) (st : LoopState),
      (st.accepted_designs : Int) + n = s.number_of_final_designs →
      n ≤ fuel → st.trajectory_n + n ≤ 1001 →
      run_design_loop s dp fs samp execF fuel i st =
        some ⟨st.trajectory_n + n, st.accepted_designs + n,
          st.exec_invocations + n, st.skips⟩ := by
  intro n
  induction n with
  | zero =>
    intro fuel i st hq _ _
    have hc : ¬ (st.accepted_designs : Int) < s.number_of_final_designs := by
      omega
    cases fuel <;> simp [run_design_loop, hc]
  | succ n ih =>
    intro fuel i st hq hfuel hceil
    match fuel, hfuel with
    | fuel + 1, _ =>
      have hc : (st.accepted_designs : Int) < s.number_of_final_designs := by
        omega
      simp only [run_design_loop]
      rw [if_pos hc, hg _, if_neg (by simp)]
      rw [hex _ _ _, runStep_true]
      dsimp only
      by_cases hb : st.trajectory_n + 1 > 1000
      · have hn : n = 0 := by omega
        rw [if_pos hb]
        simp only [Option.some.injEq, LoopState.mk.injEq, and_true, true_and]
        omega
      · rw [if_neg hb]
        rw [ih fuel (i + 1)
          ⟨st.trajectory_n + 1, st.accepted_designs + 1,
            st.exec_invocations + 1, st.skips⟩
          (by push_cast at hq ⊢; omega) (by omega) (by dsimp only; omega)]
        simp only [Option.some.injEq, LoopState.mk.injEq, and_true, true_and]
        omega

/-- A loop run in which every invocation of the executor fails and the
duplicate guard never fires executes attempts until the trajectory counter
passes the safety ceiling. -/
lemma loop_all_fail_general (s : Settings) (dp : String → String)
    (fs : List String) (samp : Nat → Int × Int)
    (execF : String → Int → Int → TrajResult)
    (hex : ∀ nm l sd, (execF nm l sd).success = false)
    (hg : ∀ nm, check_trajectory_exists dp fs nm = false) :
    ∀ (r fuel i : Nat) (st : LoopState),
      st.trajectory_n + (r + 1) = 1001 → r + 1 ≤ fuel →
      (st.accepted_designs : Int) < s.number_of_final_designs →
      run_design_loop s dp fs samp execF fuel i st =
        some ⟨1001, st.accepted_designs,
          st.exec_invocations + (r + 1), st.skips⟩ := by
  intro r
  induction r with
  | zero =>
    intro fuel i st hceil hfuel hc
    match fuel, hfuel with
    | fuel + 1, _ =>
      simp only [run_design_loop]
      rw [if_pos hc, hg _, if_neg (by simp)]
      rw [runStep_false_eq _ _ (hex _ _ _)]
      dsimp only
      rw [if_pos (by omega)]
      simp only [Option.some.injEq, LoopState.mk.injEq, and_true, true_and]
      omega
  | succ r ih =>
    intro fuel i st hceil hfuel hc
    match fuel, hfuel with
    | fuel + 1, _ =>
      simp only [run_design_loop]
      rw [if_pos hc, hg _, if_neg (by simp)]
      rw [runStep_false_eq _ _ (hex _ _ _)]
      dsimp only
      rw [if_neg (by omega)]
      rw [ih fuel (i + 1)
        ⟨st.trajectory_n + 1, st.accepted_designs,
          st.exec_invocations + 1, st.skips⟩
        (by dsimp only; omega) (by omega) (by dsimp only; omega)]
      simp only [Option.some.injEq, LoopState.mk.injEq, and_true, true_and]
      omega

/-! ## Claim C1 -/

/-- C1 (counterexample): a run in which the executor reports success with a
non-empty terminate reason.  The claim predicts that the attempt is not
accepted, but the loop increments accepted_designs to 1, meets the quota of
1 and stops; the verdict's terminate field is "early_stop", not empty. -/
theorem c1_counterexample :
    run_design_loop ⟨"d", "b", "t.pdb", "A", "", [30, 110], 1⟩
      (design_paths "d") [] (fun _ => (30, 7))
      (fun _ _ _ => ⟨true, "early_stop"⟩) 5 0 initState =
      some ⟨2, 1, 1, 0⟩ ∧
    ("early_stop" : String) ≠ "" := by
  exact ⟨rfl, by decide⟩

/-- C1 (amended): the classification step of the loop increments
accepted_designs exactly when the success flag of the verdict is set and
increments trajectory_n in either case; the terminate field of the verdict
is never consulted, so a success verdict with a non-empty terminate reason
is counted as accepted. -/
theorem c1_classify_by_success_only (b : Bool) (t : String) (st : LoopState) :
    (runStep ⟨b, t⟩ st).accepted_designs =
      (if b then st.accepted_designs + 1 else st.accepted_designs) ∧
    (runStep ⟨b, t⟩ st).trajectory_n = st.trajectory_n + 1 ∧
    runStep ⟨b, t⟩ st = runStep ⟨b, ""⟩ st := by
  cases b <;> simp [runStep]

/-! ## Claim C2 -/

/-- C2: when the sampled name of an iteration already exists in the
workspace, the iteration is skipped: the executor is not invoked, neither
trajectory_n nor accepted_designs nor exec_invocations changes (only the
instrumentation skip counter), and the loop goes back to sampling the next
draw. -/
theorem c2_duplicate_skip (s : Settings) (dp : String → String)
    (fs : List String) (samp : Nat → Int × Int)
    (execF : String → Int → Int → TrajResult) (fuel i : Nat) (st : LoopState)
    (hq : (st.accepted_designs : Int) < s.number_of_final_designs)
    (hdup : check_trajectory_exists dp fs
      (generate_design_name s.binder_name (samp i).1 (samp i).2) = true) :
    run_design_loop s dp fs samp execF (fuel + 1) i st =
      run_design_loop s dp fs samp execF fuel (i + 1)
        { st with skips := st.skips + 1 } := by
  simp only [run_design_loop]
  rw [if_pos hq, if_pos hdup]

/-- C2 witness: a concrete skip, with the duplicate file present in the
Trajectory category. -/
theorem c2_duplicate_skip_witness :
    run_design_loop ⟨"d", "b", "t.pdb", "A", "", [30, 110], 1⟩
      (design_paths "d") ["d/Trajectory/b_l30_s7.pdb"] (fun _ => (30, 7))
      (fun _ _ _ => ⟨true, ""⟩) 3 0 initState =
      run_design_loop ⟨"d", "b", "t.pdb", "A", "", [30, 110], 1⟩
        (design_paths "d") ["d/Trajectory/b_l30_s7.pdb"] (fun _ => (30, 7))
        (fun _ _ _ => ⟨true, ""⟩) 2 1 { initState with skips := initState.skips + 1 } :=
  c2_duplicate_skip ⟨"d", "b", "t.pdb", "A", "", [30, 110], 1⟩
    (design_paths "d") ["d/Trajectory/b_l30_s7.pdb"] (fun _ => (30, 7))
    (fun _ _ _ => ⟨true, ""⟩) 2 0 initState (by decide) rfl

/-! ## Claim C3 -/

/-- C3 (counterexample): with quota 2 and an always-successful executor the
loop executes exactly 2 attempts and stops, but the Run Summary reports 3
as its total-trajectories figure, not the 2 the claim asserts. -/
theorem c3_counterexample :
    run_design_loop ⟨"d", "b", "t.pdb", "A", "", [30, 110], 2⟩
      (design_paths "d") [] (fun _ => (30, 7)) (fun _ _ _ => ⟨true, ""⟩)
      10 0 initState = some ⟨3, 2, 2, 0⟩ ∧
    run_summary ⟨3, 2, 2, 0⟩ ≠ (2, 2) := by
  exact ⟨rfl, by decide⟩

/-- C3 (amended): when every executor invocation returns success with empty
terminate reason and no duplicate fires, the loop stops with
accepted_designs equal to the quota q (for q up to the safety ceiling and
enough fuel), after exactly q executor invocations and zero skips; the Run
Summary reports q + 1 as the total-trajectories figure — one more than the
number of executed attempts — and q accepted. -/
theorem c3_all_success_meets_quota (s : Settings) (dp : String → String)
    (fs : List String) (samp : Nat → Int × Int)
    (execF : String → Int → Int → TrajResult) (q fuel : Nat)
    (hex : ∀ nm l sd, execF nm l sd = ⟨true, ""⟩)
    (hg : ∀ nm, check_trajectory_exists dp fs nm = false)
    (hq : s.number_of_final_designs = (q : Int))
    (hqc : q ≤ 1000) (hfuel : q ≤ fuel) :
    run_design_loop s dp fs samp execF fuel 0 initState =
      some ⟨q + 1, q, q, 0⟩ ∧
    run_summary ⟨q + 1, q, q, 0⟩ = (q + 1, q) := by
  refine ⟨?_, rfl⟩
  have h := loop_all_success_general s dp fs samp execF hex hg q fuel 0 initState
    (by simp [initState, hq]) hfuel (by simp [initState]; omega)
  rw [h]
  simp only [initState, Option.some.injEq, LoopState.mk.injEq, and_true, true_and]
  omega

/-- C3 witness: the amended statement at quota 2. -/
theorem c3_all_success_meets_quota_witness :
    run_design_loop ⟨"d", "b", "t.pdb", "A", "", [30, 110], 2⟩
      (design_paths "d") [] (fun _ => (30, 7)) (fun _ _ _ => ⟨true, ""⟩)
      10 0 initState = some ⟨2 + 1, 2, 2, 0⟩ ∧
    run_summary ⟨2 + 1, 2, 2, 0⟩ = (2 + 1, 2) :=
  c3_all_success_meets_quota ⟨"d", "b", "t.pdb", "A", "", [30, 110], 2⟩
    (design_paths "d") [] (fun _ => (30, 7)) (fun _ _ _ => ⟨true, ""⟩) 2 10
    (fun _ _ _ => rfl) (fun _ => rfl) rfl (by decide) (by decide)

/-! ## Claim C4 -/

/-- C4 (counterexample): with an always-failing executor the loop stops at
the safety ceiling after exactly 1000 executed attempts with none accepted,
but the Run Summary reports 1001 as its total-trajectories figure, not the
1000 the claim asserts. -/
theorem c4_counterexample :
    run_design_loop ⟨"d", "b", "t.pdb", "A", "", [30, 110], 1⟩
      (design_paths "d") [] (fun _ => (30, 7)) (fun _ _ _ => ⟨false, ""⟩)
      1000 0 initState = some ⟨1001, 0, 1000, 0⟩ ∧
    run_summary ⟨1001, 0, 1000, 0⟩ ≠ (1000, 0) := by
  refine ⟨?_, by decide⟩
  have h := loop_all_fail_general ⟨"d", "b", "t.pdb", "A", "", [30, 110], 1⟩
    (design_paths "d") [] (fun _ => (30, 7)) (fun _ _ _ => ⟨false, ""⟩)
    (fun _ _ _ => rfl) (fun _ => rfl) 999 1000 0 initState rfl (by decide) (by decide)
  exact h

/-- C4 (amended): when every executor invocation fails and no duplicate
fires, the loop (quota at least 1, enough fuel) stops because trajectory_n
exceeds the 1000 safety ceiling, not because the quota is met: exactly 1000
attempts are executed, none accepted, and the Run Summary reports 1001 as
its total-trajectories figure — one more than the executed attempts — and 0
accepted. -/
theorem c4_all_failure_hits_ceiling (s : Settings) (dp : String → String)
    (fs : List String) (samp : Nat → Int × Int)
    (execF : String → Int → Int → TrajResult) (fuel : Nat)
    (hex : ∀ nm l sd, (execF nm l sd).success = false)
    (hg : ∀ nm, check_trajectory_exists dp fs nm = false)
    (hq : 1 ≤ s.number_of_final_designs) (hfuel : 1000 ≤ fuel) :
    run_design_loop s dp fs samp execF fuel 0 initState =
      some ⟨1001, 0, 1000, 0⟩ ∧
    run_summary ⟨1001, 0, 1000, 0⟩ = (1001, 0) := by
  refine ⟨?_, rfl⟩
  have h := loop_all_fail_general s dp fs samp execF hex hg 999 fuel 0 initState
    rfl (by omega) (by simp [initState]; omega)
  exact h

/-- C4 witness: the amended statement at quota 1 and fuel 1000. -/
theorem c4_all_failure_hits_ceiling_witness :
    run_design_loop ⟨"d", "b", "t.pdb", "A", "", [30, 110], 1⟩
      (design_paths "d") [] (fun _ => (30, 7)) (fun _ _ _ => ⟨false, ""⟩)
      1000 0 initState = some ⟨1001, 0, 1000, 0⟩ ∧
    run_summary ⟨1001, 0, 1000, 0⟩ = (1001, 0) :=
  c4_all_failure_hits_ceiling ⟨"d", "b", "t.pdb", "A", "", [30, 110], 1⟩
    (design_paths "d") [] (fun _ => (30, 7)) (fun _ _ _ => ⟨false, ""⟩) 1000
    (fun _ _ _ => rfl) (fun _ => rfl) (by decide) (by decide)

/-! ## Claim C5 -/

/-- C5 (counterexample): with quota 0 the loop performs zero iterations and
accepts nothing, but the Run Summary reports (1, 0) — the
total-trajectories figure printed is the initial trajectory_n value 1, not
the 0 the claim asserts. -/
theorem c5_counterexample :
    run_design_loop ⟨"d", "b", "t.pdb", "A", "", [30, 110], 0⟩
      (design_paths "d") [] (fun _ => (30, 7)) (fun _ _ _ => ⟨true, ""⟩)
      3 0 initState = some initState ∧
    run_summary initState ≠ (0, 0) := by
  exact ⟨rfl, by decide⟩

/-- C5 (amended): with quota 0 the loop performs zero iterations — the
executor is never invoked and nothing is accepted — and the Run Summary
reports 1 (the initial trajectory_n) as its total-trajectories figure and 0
accepted. -/
theorem c5_quota_zero (s : Settings) (dp : String → String)
    (fs : List String) (samp : Nat → Int × Int)
    (execF : String → Int → Int → TrajResult) (fuel : Nat)
    (hq : s.number_of_final_designs = 0) :
    run_design_loop s dp fs samp execF fuel 0 initState = some initState ∧
    initState.exec_invocations = 0 ∧ initState.accepted_designs = 0 ∧
    run_summary initState = (1, 0) := by
  refine ⟨?_, rfl, rfl, rfl⟩
  cases fuel <;> simp [run_design_loop, hq, initState]

/-- C5 witness: the amended statement at a concrete quota-0 settings
value. -/
theorem c5_quota_zero_witness :
    run_design_loop ⟨"d", "b", "t.pdb", "A", "", [30, 110], 0⟩
      (design_paths "d") [] (fun _ => (30, 7)) (fun _ _ _ => ⟨true, ""⟩)
      3 0 initState = some initState ∧
    initState.exec_invocations = 0 ∧ initState.accepted_designs = 0 ∧
    run_summary initState = (1, 0) :=
  c5_quota_zero ⟨"d", "b", "t.pdb", "A", "", [30, 110], 0⟩
    (design_paths "d") [] (fun _ => (30, 7)) (fun _ _ _ => ⟨true, ""⟩) 3 rfl

/-! ## Claim C10 -/

/-- C10: trajectory_n is initialised to 1, and every completed loop run
started from a state satisfying the off-by-one relation ends in a state
satisfying it, so the total-trajectories figure of the Run Summary always
exceeds the number of executor invocations by exactly one. -/
theorem c10_summary_offbyone :
    initState.trajectory_n = 1 ∧
    ∀ (s : Settings) (dp : String → String) (fs : List String)
      (samp : Nat → Int × Int) (execF : String → Int → Int → TrajResult)
      (fuel i : Nat) (st st' : LoopState),
      st.trajectory_n = st.exec_invocations + 1 →
      run_design_loop s dp fs samp execF fuel i st = some st' →
      (run_summary st').1 = st'.exec_invocations + 1 := by
  refine ⟨rfl, ?_⟩
  intro s dp fs samp execF fuel i st st' hinv hrun
  exact loop_preserves_offbyone s dp fs samp execF fuel i st st' hinv hrun

/-- C10 witness: the summary relation at a concrete completed run (quota 0,
zero fuel). -/
theorem c10_summary_offbyone_witness :
    initState.trajectory_n = 1 ∧
    (run_summary initState).1 = initState.exec_invocations + 1 :=
  ⟨c10_summary_offbyone.1,
    c10_summary_offbyone.2 ⟨"d", "b", "t.pdb", "A", "", [30, 110], 0⟩
      (design_paths "d") [] (fun _ => (30, 7)) (fun _ _ _ => ⟨true, ""⟩)
      0 0 initState initState rfl rfl⟩

/-! ## Claim C6 -/

/-- C6 (counterexample): on inputs the claim says must be rejected — a
length range with min 50 above max 10, and separately a quota of 0 with
empty name and target — the spec-side validator fails with InvalidSettings,
but the source constructor succeeds and returns a Settings value carrying
the invalid fields unchanged. -/
theorem c6_counterexample :
    createSettingsSpec "d" "b" "t.pdb" "A" "" [50, 10] 2 =
      Except.error "InvalidSettings" ∧
    create_default_settings "d" "b" "t.pdb" "A" "" [50, 10] 2 =
      ⟨"d", "b", "t.pdb", "A", "", [50, 10], 2⟩ ∧
    createSettingsSpec "d" "" "" "A" "" [30, 110] 0 =
      Except.error "InvalidSettings" ∧
    create_default_settings "d" "" "" "A" "" [30, 110] 0 =
      ⟨"d", "", "", "A", "", [30, 110], 0⟩ :=
  ⟨rfl, rfl, rfl, rfl⟩

/-- C6 (amended): create_default_settings performs no validation at all:
for every input, including those with min_len above max_len, quota below 1,
or empty name or target, it succeeds and returns the Settings value with
exactly the given fields. -/
theorem c6_create_never_fails (dp bn sp ch th : String) (lo hi q : Int)
    (hinvalid : hi < lo ∨ q < 1 ∨ bn = "" ∨ sp = "") :
    create_default_settings dp bn sp ch th [lo, hi] q =
      ⟨dp, bn, sp, ch, th, [lo, hi], q⟩ := rfl

/-- C6 witness: the amended statement on the invalid length range 50 above
10. -/
theorem c6_create_never_fails_witness :
    create_default_settings "d" "b" "t.pdb" "A" "" [50, 10] 0 =
      ⟨"d", "b", "t.pdb", "A", "", [50, 10], 0⟩ :=
  c6_create_never_fails "d" "b" "t.pdb" "A" "" 50 10 0 (by decide)

/-! ## Claim C7 -/

/-- C7: saving a Settings value to its canonical record and loading it back
restores the value exactly: from_dict after to_dict is the identity on all
seven fields. -/
theorem c7_settings_roundtrip (s : Settings) : from_dict (to_dict s) = some s := rfl

/-! ## Claim C8 -/

/-- C8: the trajectory namer is a pure deterministic function — equal
(prefix, length, seed) inputs give the equal name — and for a fixed prefix
and seed, different lengths always give different names, because the
decimal rendering of the length is recoverable from the name. -/
theorem c8_namer_deterministic_injective (p : String) (L1 L2 S : Int)
    (h : L1 ≠ L2) :
    generate_design_name p L1 S ≠ generate_design_name p L2 S ∧
    generate_design_name p L1 S = generate_design_name p L1 S := by
  refine ⟨?_, rfl⟩
  intro heq
  apply h
  apply intRepr_inj
  apply String.ext
  have hd := congrArg String.data heq
  simp only [generate_design_name, String.data_append,
    show ("_l" : String).data = ['_', 'l'] from rfl,
    show ("_s" : String).data = ['_', 's'] from rfl,
    List.append_assoc, List.cons_append, List.nil_append] at hd
  have h1 := List.append_cancel_left hd
  simp only [List.cons.injEq, true_and] at h1
  exact List.append_cancel_right h1

/-- C8 witness: distinct lengths 30 and 31 with prefix "b" and seed 7 give
distinct names. -/
theorem c8_namer_witness :
    generate_design_name "b" 30 7 ≠ generate_design_name "b" 31 7 ∧
    generate_design_name "b" 30 7 = generate_design_name "b" 30 7 :=
  c8_namer_deterministic_injective "b" 30 31 7 (by decide)

/-! ## Claim C9 -/

lemma data_ne {s t : String} (h : s.data ≠ t.data) : s ≠ t :=
  fun he => h (congrArg String.data he)

lemma append_cons2_ne (a : List Char) (e : Char) {c d : Char} (h : c ≠ d)
    (r1 r2 : List Char) : a ++ (e :: c :: r1) ≠ a ++ (e :: d :: r2) := by
  intro he
  have h2 := List.append_cancel_left he
  simp only [List.cons.injEq] at h2
  exact h h2.2.1

lemma pathJoin_assoc (x y z : String) :
    pathJoin (pathJoin x y) z = pathJoin x (y ++ "/" ++ z) := by
  simp [pathJoin, String.append_assoc]

/-- A path under the Trajectory subtree is never a path under Accepted. -/
lemma traj_ne_acc (b g f : String) :
    pathJoin (pathJoin b "Trajectory") g ≠ pathJoin (pathJoin b "Accepted") f := by
  apply data_ne
  simp only [pathJoin, String.data_append, List.append_assoc,
    show ("/" : String).data = ['/'] from rfl,
    show ("Trajectory" : String).data = ['T','r','a','j','e','c','t','o','r','y'] from rfl,
    show ("Accepted" : String).data = ['A','c','c','e','p','t','e','d'] from rfl,
    List.cons_append, List.nil_append]
  exact append_cons2_ne b.data '/' (by decide) _ _

/-- A path under the Trajectory subtree is never a path under Rejected. -/
lemma traj_ne_rej (b g f : String) :
    pathJoin (pathJoin b "Trajectory") g ≠ pathJoin (pathJoin b "Rejected") f := by
  apply data_ne
  simp only [pathJoin, String.data_append, List.append_assoc,
    show ("/" : String).data = ['/'] from rfl,
    show ("Trajectory" : String).data = ['T','r','a','j','e','c','t','o','r','y'] from rfl,
    show ("Rejected" : String).data = ['R','e','j','e','c','t','e','d'] from rfl,
    List.cons_append, List.nil_append]
  exact append_cons2_ne b.data '/' (by decide) _ _

/-- C9: the duplicate guard is true exactly when the artifact name + ".pdb"
is present in one of the four in-flight trajectory categories; a filesystem
holding the artifact only in the final Accepted and Rejected categories
makes the guard return false. -/
theorem c9_duplicate_guard_categories (base : String) (fs : List String)
    (name : String) :
    (check_trajectory_exists (design_paths base) fs name = true ↔
      (pathJoin (pathJoin base "Trajectory") (name ++ ".pdb") ∈ fs ∨
       pathJoin (pathJoin (pathJoin base "Trajectory") "Relaxed")
         (name ++ ".pdb") ∈ fs ∨
       pathJoin (pathJoin (pathJoin base "Trajectory") "LowConfidence")
         (name ++ ".pdb") ∈ fs ∨
       pathJoin (pathJoin (pathJoin base "Trajectory") "Clashing")
         (name ++ ".pdb") ∈ fs)) ∧
    check_trajectory_exists (design_paths base)
      [pathJoin (pathJoin base "Accepted") (name ++ ".pdb"),
       pathJoin (pathJoin base "Rejected") (name ++ ".pdb")] name = false := by
  have e1 : design_paths base "Trajectory" = pathJoin base "Trajectory" := rfl
  have e2 : design_paths base "Trajectory/Relaxed" =
    pathJoin (pathJoin base "Trajectory") "Relaxed" := rfl
  have e3 : design_paths base "Trajectory/LowConfidence" =
    pathJoin (pathJoin base "Trajectory") "LowConfidence" := rfl
  have e4 : design_paths base "Trajectory/Clashing" =
    pathJoin (pathJoin base "Trajectory") "Clashing" := rfl
  constructor
  · simp [check_trajectory_exists, os_path_exists, e1, e2, e3, e4,
      List.contains, List.elem_iff, or_assoc]
  · have h1 := traj_ne_acc base (name ++ ".pdb") (name ++ ".pdb")
    have h2 := traj_ne_rej base (name ++ ".pdb") (name ++ ".pdb")
    have h3 : pathJoin (pathJoin (pathJoin base "Trajectory") "Relaxed")
        (name ++ ".pdb") ≠ pathJoin (pathJoin base "Accepted") (name ++ ".pdb") := by
      rw [pathJoin_assoc]; exact traj_ne_acc base _ _
    have h4 : pathJoin (pathJoin (pathJoin base "Trajectory") "Relaxed")
        (name ++ ".pdb") ≠ pathJoin (pathJoin base "Rejected") (name ++ ".pdb") := by
      rw [pathJoin_assoc]; exact traj_ne_rej base _ _
    have h5 : pathJoin (pathJoin (pathJoin base "Trajectory") "LowConfidence")
        (name ++ ".pdb") ≠ pathJoin (pathJoin base "Accepted") (name ++ ".pdb") := by
      rw [pathJoin_assoc]; exact traj_ne_acc base _ _
    have h6 : pathJoin (pathJoin (pathJoin base "Trajectory") "LowConfidence")
        (name ++ ".pdb") ≠ pathJoin (pathJoin base "Rejected") (name ++ ".pdb") := by
      rw [pathJoin_assoc]; exact traj_ne_rej base _ _
    have h7 : pathJoin (pathJoin (pathJoin base "Trajectory") "Clashing")
        (name ++ ".pdb") ≠ pathJoin (pathJoin base "Accepted") (name ++ ".pdb") := by
      rw [pathJoin_assoc]; exact traj_ne_acc base _ _
    have h8 : pathJoin (pathJoin (pathJoin base "Trajectory") "Clashing")
        (name ++ ".pdb") ≠ pathJoin (pathJoin base "Rejected") (name ++ ".pdb") := by
      rw [pathJoin_assoc]; exact traj_ne_rej base _ _
    simp [check_trajectory_exists, os_path_exists, e1, e2, e3, e4,
      List.contains, h1, h2, h3, h4, h5, h6, h7, h8]
